import Mathlib

/-!
Verification of the WebForms postback replay and session-state engine of the
SiteReportAutomate repository.

Strings are modelled as `List Char`.  HTML documents are modelled through a
small tokenizer faithful to what Python's `html.parser` (used through
BeautifulSoup) produces on the markup this application handles: a flat stream
of open tags (with their attributes), close tags, and text runs.  The
functions `parse_status_from_html`, `_extract_from_msajax_delta` (here
`extract_from_msajax_delta`), `parse_status`, `extract_hidden`,
`pick_time_option`, `pick_random_schedule_date` and the row handling of the
batch drivers are translated from
`src/scripts/firmware_webforms_replay_playwright.py`,
`src/scripts/firmware_webforms_replay.py` and
`src/scripts/schedule_firmware.py`.
-/

namespace SRA

/-! ## Basic character and list-of-char utilities -/

/-- Whitespace test matching Python's `str.split()` / `str.strip()` on the
characters that occur in this application's pages. -/
def isSpaceC (c : Char) : Bool :=
  c = ' ' || c = '\t' || c = '\n' || c = '\r'

/-- `s.upper()`. -/
def upperChars (s : List Char) : List Char := s.map Char.toUpper

/-- `s.lower()`. -/
def lowerChars (s : List Char) : List Char := s.map Char.toLower

/-- `s.strip()`. -/
def trimChars (s : List Char) : List Char :=
  ((s.dropWhile isSpaceC).reverse.dropWhile isSpaceC).reverse

/-- `s.split()` (split on whitespace runs, dropping empty pieces); `acc` is
the word currently being accumulated. -/
def wordsAux (acc : List Char) : List Char → List (List Char)
  | [] => if acc = [] then [] else [acc]
  | c :: r =>
    if isSpaceC c then
      if acc = [] then wordsAux [] r else acc :: wordsAux [] r
    else wordsAux (acc ++ [c]) r

/-- `" ".join(ws)`. -/
def joinWords : List (List Char) → List Char
  | [] => []
  | [w] => w
  | w :: ws => w ++ ' ' :: joinWords ws

/-- `" ".join(s.split())` — whitespace normalisation used on every status
text the parsers return. -/
def normWords (s : List Char) : List Char := joinWords (wordsAux [] s)

/-- `needle.isPrefixOf hay` as an executable Bool. -/
def isPrefixC : List Char → List Char → Bool
  | [], _ => true
  | _ :: _, [] => false
  | a :: as, b :: bs => a = b && isPrefixC as bs

/-- Python's `needle in hay` substring test. -/
def hasSub (hay needle : List Char) : Bool :=
  match hay with
  | [] => isPrefixC needle []
  | _ :: t => isPrefixC needle hay || hasSub t needle

/-- Python's `s.split(sep)` for a one-character separator:
`splitOnChar c s` never returns `[]` and keeps empty pieces. -/
def splitOnChar (c : Char) : List Char → List (List Char)
  | [] => [[]]
  | x :: xs =>
    if x = c then [] :: splitOnChar c xs
    else
      match splitOnChar c xs with
      | [] => [[x]]
      | h :: t => (x :: h) :: t

/-- `s.startswith("|")`. -/
def startsWithPipe : List Char → Bool
  | [] => false
  | c :: _ => c = '|'

/-! ## HTML token model

A minimal model of what `BeautifulSoup(html, "html.parser")` yields on the
markup handled by this repository: a stream of open tags carrying their
attribute list and an explicit self-closing flag, close tags, and text runs.
-/

inductive HToken where
  | openTag (name : List Char) (attrs : List (List Char × List Char)) (selfClose : Bool)
  | closeTag (name : List Char)
  | text (s : List Char)
deriving DecidableEq, Repr

/-- Attribute-scanner mode: between attributes, inside a key, or inside a
(double-quoted) value. -/
inductive AMode where
  | idle
  | key (k : List Char)
  | val (k v : List Char)

/-- Scan the attribute portion of a tag (`name="value"` pairs, as the pages
and the synthetic echo markup use). -/
def parseAttrsAux : AMode → List Char → List (List Char × List Char)
  | .idle, [] => []
  | .idle, c :: r =>
    if c = ' ' || c = '/' then parseAttrsAux .idle r
    else parseAttrsAux (.key [c]) r
  | .key k, [] => [(k, [])]
  | .key k, c :: r =>
    if c = '=' then
      match r with
      | [] => [(k, [])]
      | q :: r' =>
        if q = '"' then parseAttrsAux (.val k []) r'
        else parseAttrsAux (.val k [q]) r'
    else if c = ' ' then (k, []) :: parseAttrsAux .idle r
    else parseAttrsAux (.key (k ++ [c])) r
  | .val k v, [] => [(k, v)]
  | .val k v, c :: r =>
    if c = '"' then (k, v) :: parseAttrsAux .idle r
    else parseAttrsAux (.val k (v ++ [c])) r

/-- Tag name: the raw tag content up to the first space or slash. -/
def tagName (raw : List Char) : List Char :=
  raw.takeWhile (fun c => !(c = ' ' || c = '/'))

/-- Attributes of a tag from its raw content. -/
def tagAttrs (raw : List Char) : List (List Char × List Char) :=
  parseAttrsAux .idle (raw.dropWhile (fun c => !(c = ' ')))

/-- Whether the raw tag content ends in `/` (an explicitly self-closed tag). -/
def tagSelfClose (raw : List Char) : Bool :=
  raw.getLast? = some '/'

/-- Tokenizer mode: inside a text run, just after a `<`, inside an open tag,
or inside a close tag; accumulators hold the characters read so far. -/
inductive TMode where
  | text (acc : List Char)
  | pre
  | tag (acc : List Char)
  | ctag (acc : List Char)

/-- Emit a pending text run if it is non-empty. -/
def emitText (acc : List Char) (k : List HToken) : List HToken :=
  if acc = [] then k else .text acc :: k

/-- The tokenizer proper. -/
def tokAux : TMode → List Char → List HToken
  | .text acc, [] => emitText acc []
  | .text acc, c :: r =>
    if c = '<' then emitText acc (tokAux .pre r)
    else tokAux (.text (acc ++ [c])) r
  | .pre, [] => []
  | .pre, c :: r =>
    if c = '/' then tokAux (.ctag []) r else tokAux (.tag [c]) r
  | .tag _, [] => []
  | .tag acc, c :: r =>
    if c = '>' then
      .openTag (tagName acc) (tagAttrs acc) (tagSelfClose acc) :: tokAux (.text []) r
    else tokAux (.tag (acc ++ [c])) r
  | .ctag _, [] => []
  | .ctag acc, c :: r =>
    if c = '>' then .closeTag acc :: tokAux (.text []) r
    else tokAux (.ctag (acc ++ [c])) r

/-- `BeautifulSoup(html, "html.parser")` as a token stream. -/
def tokenize (s : List Char) : List HToken := tokAux (.text []) s

/-- First attribute with the given key, as BeautifulSoup's `el.get`. -/
def lookupAttr : List (List Char × List Char) → List Char → Option (List Char)
  | [], _ => none
  | (k, v) :: r, key => if k = key then some v else lookupAttr r key

/-- HTML void elements (no children), as `html.parser` treats them. -/
def isVoid (name : List Char) : Bool :=
  name = ("input".data) || name = ("br".data) || name = ("hr".data) ||
    name = ("img".data) || name = ("meta".data)

/-- `soup.select_one("#" + idv)`: the first open tag whose `id` attribute is
`idv`.  Returns whether the element can have no children (void or
self-closed) and the token stream following the open tag. -/
def selectById : List HToken → List Char → Option (Bool × List HToken)
  | [], _ => none
  | .openTag n a sc :: r, idv =>
    if lookupAttr a ("id".data) = some idv then some (sc || isVoid n, r)
    else selectById r idv
  | .closeTag _ :: r, idv => selectById r idv
  | .text _ :: r, idv => selectById r idv

/-- Text runs inside an element: scan from just after its open tag at depth
1, stopping at the close tag that returns the depth to zero. -/
def collectText : Nat → List HToken → List (List Char)
  | _, [] => []
  | d, .text s :: r => s :: collectText d r
  | d, .openTag n _ sc :: r =>
    collectText (if sc || isVoid n then d else d + 1) r
  | d, .closeTag _ :: r => if d = 1 then [] else collectText (d - 1) r

/-- All text runs of a whole document. -/
def allTexts : List HToken → List (List Char)
  | [] => []
  | .text s :: r => s :: allTexts r
  | .openTag _ _ _ :: r => allTexts r
  | .closeTag _ :: r => allTexts r

/-- `" ".join(node.get_text(" ", strip=True).split())` for the element with
the given id, when present. -/
def elementTextNorm (toks : List HToken) (idv : List Char) : Option (List Char) :=
  match selectById toks idv with
  | none => none
  | some (v, suffix) =>
    if v then some [] else some (joinWords ((collectText 1 suffix).map (wordsAux [])).flatten)

/-- `" ".join(BeautifulSoup(html).get_text(" ", strip=True).split())` over a
whole document. -/
def docTextNorm (toks : List HToken) : List Char :=
  joinWords ((allTexts toks).map (wordsAux [])).flatten

/-! ## Delta Response Parser

From `src/scripts/firmware_webforms_replay_playwright.py`
(`_extract_from_msajax_delta`, `parse_status_from_html`) and
`src/scripts/firmware_webforms_replay.py` (`parse_status`).
-/

/-- The ids of the priority-ordered status selectors
`#MainContent_MessageLabel`, `#MainContent_lblMessage`,
`#MainContent_lblStatus`. -/
def STATUS_IDS : List (List Char) :=
  [("MainContent_MessageLabel".data), ("MainContent_lblMessage".data),
    ("MainContent_lblStatus".data)]

/-- The keyword list of the last-resort sniff, in source order. -/
def KEYWORDS : List (List Char) :=
  [("SUCCESS".data), ("SCHEDULE".data), ("NOT".data), ("INVALID".data),
    ("ERROR".data)]

/-- `for key in (...): if key in upper: return key` — first keyword occurring
in `hay`, else empty. -/
def firstKeyword (hay : List Char) : List (List Char) → List Char
  | [] => []
  | k :: ks => if hasSub hay k then k else firstKeyword hay ks

/-- The token walk of `_extract_from_msajax_delta`: scan the pipe-separated
tokens for the literal `updatePanel`; when at least three tokens follow, the
third one after it is collected as an HTML snippet and the walk resumes past
it, otherwise the walk advances by one. -/
def collectPanels : List (List Char) → List (List Char)
  | [] => []
  | t :: a :: b :: c :: rest' =>
    -- after the marker: panel id `a`, byte length `b`, HTML fragment `c`
    if t = ("updatePanel".data) then c :: collectPanels rest'
    else collectPanels (a :: b :: c :: rest')
  | _ :: rest => collectPanels rest

/-- Inner selector loop of the delta branch: first selector whose element
exists and has non-empty normalised text (an empty-text match falls through
to the next selector). -/
def nonemptySelTextAux (toks : List HToken) : List (List Char) → Option (List Char)
  | [] => none
  | idv :: rest =>
    match elementTextNorm toks idv with
    | some t => if t ≠ [] then some t else nonemptySelTextAux toks rest
    | none => nonemptySelTextAux toks rest

def nonemptySelText (toks : List HToken) : Option (List Char) :=
  nonemptySelTextAux toks STATUS_IDS

/-- First snippet yielding a selector hit with non-empty text. -/
def firstSnippetSelText : List (List Char) → Option (List Char)
  | [] => none
  | h :: t =>
    match nonemptySelText (tokenize h) with
    | some x => some x
    | none => firstSnippetSelText t

/-- First snippet with non-empty cleaned plain text. -/
def firstSnippetCleaned : List (List Char) → Option (List Char)
  | [] => none
  | h :: t =>
    let c := docTextNorm (tokenize h)
    if c ≠ [] then some c else firstSnippetCleaned t

/-- `_extract_from_msajax_delta(delta)`. -/
def extract_from_msajax_delta (delta : List Char) : List Char :=
  if startsWithPipe delta then
    let snippets := collectPanels (splitOnChar '|' delta)
    match firstSnippetSelText snippets with
    | some t => t
    | none =>
      match firstSnippetCleaned snippets with
      | some c => c.take 300
      | none => []
  else []

/-- Full-page selector loop of `parse_status_from_html` and `parse_status`:
the first selector whose element exists returns its normalised text, even
when that text is empty. -/
def firstSelMatchAux (toks : List HToken) : List (List Char) → Option (List Char)
  | [] => none
  | idv :: rest =>
    match elementTextNorm toks idv with
    | some t => some t
    | none => firstSelMatchAux toks rest

def firstSelMatch (toks : List HToken) : Option (List Char) :=
  firstSelMatchAux toks STATUS_IDS

/-- `parse_status_from_html(html)` of the Playwright replayer. -/
def parse_status_from_html (html : List Char) : List Char :=
  if startsWithPipe html then extract_from_msajax_delta html
  else
    match firstSelMatch (tokenize html) with
    | some t => t
    | none => firstKeyword (upperChars html) KEYWORDS

/-- `parse_status(html)` of the direct-HTTP replayer. -/
def parse_status (html : List Char) : List Char :=
  match firstSelMatch (tokenize html) with
  | some t => t
  | none =>
    if startsWithPipe html then firstKeyword (upperChars html) KEYWORDS
    else []

/-! ## Harness for the format-invariance property (C1)

A logical status message `m` carried by the known message element, rendered
once as a full HTML-page body and once as a MicrosoftAjax delta whose
`updatePanel` fragment is the same HTML.
-/

/-- The message element carrying `m`. -/
def fragmentOf (m : List Char) : List Char :=
  ("<span id=\"MainContent_lblMessage\">".data) ++ (m ++ ("</span>".data))

/-- A full-page body containing the message element. -/
def fullPageOf (m : List Char) : List Char :=
  ("<html><body>".data) ++ (fragmentOf m ++ ("</body></html>".data))

/-- A MicrosoftAjax delta whose single `updatePanel` fragment is the same
HTML: `|len|updatePanel|panelId|len|fragment|`. -/
def deltaOf (m : List Char) : List Char :=
  ("|1|updatePanel|pnl|99|".data) ++ (fragmentOf m ++ ("|".data))

/-! ## Session State Extractor and Form Payload Builder

From `src/scripts/firmware_webforms_replay.py` (`extract_hidden`,
`post_search`) and `src/scripts/firmware_webforms_replay_playwright.py`
(`post_search`); the form dicts of the two `post_search` functions are
identical.
-/

/-- The hidden-field bundle. -/
structure PostbackState where
  viewState : List Char
  viewStateGenerator : List Char
  eventValidation : List Char
  eventTarget : List Char
  eventArgument : List Char
  lastFocus : List Char
deriving DecidableEq, Repr

def SEARCH_PANEL : List Char := ("ctl00$MainContent$searchForm".data)
def SEARCH_TRIGGER : List Char := ("ctl00$MainContent$btnSearch".data)

/-- The form payload assembled by `post_search`, in source order. -/
def post_search_form (hidden : PostbackState)
    (opco productCode serial : List Char) : List (List Char × List Char) :=
  [(("ctl00$ScriptManager1".data), SEARCH_PANEL ++ '|' :: SEARCH_TRIGGER),
    (("__EVENTTARGET".data), hidden.eventTarget),
    (("__EVENTARGUMENT".data), hidden.eventArgument),
    (("__LASTFOCUS".data), hidden.lastFocus),
    (("__VIEWSTATE".data), hidden.viewState),
    (("__VIEWSTATEGENERATOR".data), hidden.viewStateGenerator),
    (("__EVENTVALIDATION".data), hidden.eventValidation),
    (("ctl00$MainContent$ddlOpCoID".data), opco),
    (("ctl00$MainContent$ProductCode".data), productCode),
    (("ctl00$MainContent$SerialNumber".data), serial),
    (("ctl00$ucAsync1$hdnTimeout".data), ("30".data)),
    (("ctl00$ucAsync1$hdnSetTimeoutID".data), ("4".data)),
    (("__ASYNCPOST".data), ("true".data)),
    (SEARCH_TRIGGER, ("Search".data))]

/-- One hidden input of the synthetic echo page. -/
def renderHiddenInput (n v : List Char) : List Char :=
  ("<input name=\"".data) ++ (n ++ (("\" value=\"".data) ++ (v ++ ("\"/>".data))))

/-- The raw tag content of one echoed hidden input (between `<` and `>`). -/
def innerOf (n v : List Char) : List Char :=
  ("input name=\"".data) ++ (n ++ (("\" value=\"".data) ++ (v ++ ("\"/".data))))

/-- The synthetic echo page: every payload field rendered back as a named
hidden input. -/
def echoPage : List (List Char × List Char) → List Char
  | [] => []
  | (n, v) :: rest => renderHiddenInput n v ++ echoPage rest

/-- `soup.find("input", {"name": name})` followed by `_as_str(el.get("value"))`:
value of the first input with the given `name` attribute, empty when the
input or its `value` attribute is absent. -/
def findInputValue : List HToken → List Char → List Char
  | [], _ => []
  | .openTag n a _ :: r, nm =>
    if n = ("input".data) ∧ lookupAttr a ("name".data) = some nm then
      (lookupAttr a ("value".data)).getD []
    else findInputValue r nm
  | .closeTag _ :: r, nm => findInputValue r nm
  | .text _ :: r, nm => findInputValue r nm

/-- `extract_hidden(html)`. -/
def extract_hidden (html : List Char) : PostbackState :=
  { viewState := findInputValue (tokenize html) ("__VIEWSTATE".data)
    viewStateGenerator := findInputValue (tokenize html) ("__VIEWSTATEGENERATOR".data)
    eventValidation := findInputValue (tokenize html) ("__EVENTVALIDATION".data)
    eventTarget := findInputValue (tokenize html) ("__EVENTTARGET".data)
    eventArgument := findInputValue (tokenize html) ("__EVENTARGUMENT".data)
    lastFocus := findInputValue (tokenize html) ("__LASTFOCUS".data) }

/-! ## Scheduling Policy

From `src/scripts/schedule_firmware.py` (`pick_random_schedule_date`,
`_normalise_time_label`, `ALLOWED_TIME_OPTIONS`, `pick_time_option`,
`select_time`) and `src/scripts/firmware_webforms_replay_playwright.py`
(`pick_schedule_date`).
-/

/-- `_normalise_time_label`: strip, collapse whitespace runs, uppercase. -/
def normTimeLabel (s : List Char) : List Char := upperChars (normWords s)

/-- The allow-listed maintenance-window hour options `(value, label)`. -/
def ALLOWED_TIME_OPTIONS : List (List Char × List Char) :=
  [(("00".data), ("12 AM".data)), (("01".data), ("01 AM".data)),
    (("02".data), ("02 AM".data)), (("03".data), ("03 AM".data)),
    (("04".data), ("04 AM".data)), (("05".data), ("05 AM".data)),
    (("06".data), ("06 AM".data)), (("07".data), ("07 AM".data)),
    (("19".data), ("07 PM".data)), (("20".data), ("08 PM".data)),
    (("21".data), ("09 PM".data)), (("22".data), ("10 PM".data)),
    (("23".data), ("11 PM".data))]

/-- Inner loop of `pick_time_option` for one allowed option: the first
cleaned live option whose candidate label (its own label, or the allowed
label when its label is empty) normalises to the allowed label, or whose
non-empty value equals the allowed value. -/
def findTimeMatch (av al : List Char) :
    List (List Char × List Char) → Option (List Char × List Char)
  | [] => none
  | (v, l) :: t =>
    let candidate := if l = [] then al else l
    if normTimeLabel candidate = normTimeLabel al ∨ (v ≠ [] ∧ v = av) then
      some (v, l)
    else findTimeMatch av al t

/-- Outer loop of `pick_time_option` over the allowed options in order. -/
def firstAllowedMatch (cleaned : List (List Char × List Char)) :
    List (List Char × List Char) → Option (List Char × List Char)
  | [] => none
  | (av, al) :: rest =>
    match findTimeMatch av al cleaned with
    | some (v, l) => some (if v = [] then av else v, if l = [] then al else l)
    | none => firstAllowedMatch cleaned rest

/-- `pick_time_option(options)`. -/
def pick_time_option (options : List (List Char × List Char)) :
    Option (List Char × List Char) :=
  let cleaned :=
    ((options.map fun p => (trimChars p.1, trimChars p.2)).filter
      fun p => ¬(p.1 = [] ∧ p.2 = []))
  firstAllowedMatch cleaned ALLOWED_TIME_OPTIONS

/-- Option collection of `select_time`: live `(value, label)` pairs (already
stripped when read from the DOM), skipping placeholder options whose value
is empty and whose label contains "select" case-insensitively. -/
def collectOptions (live : List (List Char × List Char)) :
    List (List Char × List Char) :=
  live.filter fun p => ¬(p.1 = [] ∧ hasSub (lowerChars p.2) ("select".data) = true)

/-- The choice `select_time` derives from the live option list of the
schedule-time dropdown; `none` models the `RuntimeError` raised when no
dropdown yields a choice. -/
def select_time_choice (live : List (List Char × List Char)) :
    Option (List Char × List Char) :=
  pick_time_option (collectOptions live)

/-- `pick_schedule_date` of the Playwright replayer, with dates as integer
day ordinals and the `random.randint(0, max(0, span))` draw passed in as
`offset`; the window maximum only constrains the draw, so it appears in the
theorems' hypotheses rather than here. -/
def pick_schedule_date (dmin today : Int) (offset : Nat) : Int :=
  today + dmin + offset

/-- `pick_random_schedule_date` of `schedule_firmware.py`: window hardcoded
to three--six days ahead, `offset` drawn by `random.randint(0, span)` with
`span = 3`. -/
def pick_random_schedule_date (today : Int) (offset : Nat) : Int :=
  today + 3 + offset

/-! ## Batch drivers

Row handling of `main` in `src/scripts/firmware_webforms_replay.py` and
`src/scripts/firmware_webforms_replay_playwright.py`, and
`DeviceRow.from_iterable` / `run` / `_remove_row_from_csv` of
`src/scripts/schedule_firmware.py`.
-/

/-- A normalised input row as produced by `normalize_row`. -/
structure NRow where
  serial : List Char
  product_code : List Char
  state : List Char
  opco : List Char
deriving DecidableEq, Repr

/-- Network activity of one device: the state-capture GET inside
`get_state` and the postback POST of `post_search`. -/
inductive NetEvent where
  | get
  | post
deriving DecidableEq, Repr

/-- One ledger row of the direct-HTTP replayer's output CSV. -/
structure SearchOutRow where
  serial : List Char
  product_code : List Char
  state : List Char
  opco : List Char
  http_status_search : Int
  status_text_search : List Char
deriving DecidableEq, Repr

/-- Per-row body of `main` in `firmware_webforms_replay.py`: rows with an
empty serial or product code are skipped before any network call; otherwise
the state capture and postback run and one ledger row is written.  `resp` is
the server's `(status, body)` for this row. -/
def replayRowStep (resp : Int × List Char) (item : NRow) :
    List NetEvent × List SearchOutRow :=
  if item.serial = [] ∨ item.product_code = [] then ([], [])
  else
    ([.get, .post],
      [{ serial := item.serial, product_code := item.product_code,
         state := item.state, opco := item.opco,
         http_status_search := resp.1,
         status_text_search := parse_status resp.2 }])

/-- The whole row loop of `main`, concatenating network events and ledger
rows in input order. -/
def replayMainLoop (oracle : NRow → Int × List Char) :
    List NRow → List NetEvent × List SearchOutRow
  | [] => ([], [])
  | item :: rest =>
    ((replayRowStep (oracle item) item).1 ++ (replayMainLoop oracle rest).1,
      (replayRowStep (oracle item) item).2 ++ (replayMainLoop oracle rest).2)

/-- A device record of `schedule_firmware.py`. -/
structure DeviceRow where
  serial_number : List Char
  product_code : List Char
  state : List Char
  opco : List Char
deriving DecidableEq, Repr

/-- `DeviceRow.from_iterable(row)`: stringified cells are stripped; fewer
than four cells, or an empty serial number or product code, drop the row. -/
def DeviceRow.from_iterable (raw : List (List Char)) : Option DeviceRow :=
  match raw.map trimChars with
  | serial_number :: product_code :: opco :: state :: _ =>
    if serial_number = [] ∨ product_code = [] then none
    else
      some { serial_number := serial_number, product_code := product_code,
             opco := opco, state := upperChars state }
  | _ => none

/-- One ledger row of the Playwright replayer's output CSV. -/
structure PwOutRow where
  serial : List Char
  product_code : List Char
  state : List Char
  opco : List Char
  http_status_search : Int
  status_text_search : List Char
  http_status_schedule : Int
  status_text_schedule : List Char
  scheduled_date : List Char
  scheduled_time : List Char
  timezone_value : List Char
deriving DecidableEq, Repr

/-- The `writer.writerow` dict built per device by `main` in
`firmware_webforms_replay_playwright.py`: the search status text is whatever
`parse_status_from_html` returned for the search response body, and the
schedule status text is whatever `dom_submit_schedule` returned. -/
def pw_output_row (item : NRow) (code_s : Int) (html_s : List Char)
    (code_c : Int) (status_c : List Char)
    (date_iso time_val tz : List Char) : PwOutRow :=
  { serial := item.serial, product_code := item.product_code,
    state := item.state, opco := item.opco,
    http_status_search := code_s,
    status_text_search := parse_status_from_html html_s,
    http_status_schedule := code_c,
    status_text_schedule := status_c,
    scheduled_date := date_iso, scheduled_time := time_val,
    timezone_value := tz }

/-- An input-file record as `_remove_row_from_csv` reads it; each field is
the coalesced `record.get("SerialNumber") or record.get("serialnumber")`
(resp. product) lookup. -/
structure CsvRec where
  serialField : List Char
  productField : List Char
deriving DecidableEq, Repr

/-- The match test of `_remove_row_from_csv` (both sides stripped). -/
def matchesRow (rec : CsvRec) (row : DeviceRow) : Bool :=
  trimChars rec.serialField = trimChars row.serial_number &&
    trimChars rec.productField = trimChars row.product_code

/-- The `for idx, record in enumerate(records): ... break` search for
`index_to_remove`. -/
def findMatchIdx (row : DeviceRow) : List CsvRec → Option Nat
  | [] => none
  | rec :: rest =>
    if matchesRow rec row then some 0
    else (findMatchIdx row rest).map (· + 1)

/-- `_remove_row_from_csv`: delete the first matching record, if any. -/
def remove_row_from_csv (records : List CsvRec) (row : DeviceRow) : List CsvRec :=
  match findMatchIdx row records with
  | none => records
  | some i => records.eraseIdx i

/-- Row outcomes of `handle_row`. -/
inductive RowStatus where
  | Scheduled
  | AlreadyUpgraded
  | NotEligible
  | Failed
deriving DecidableEq, Repr

/-- The input-file effect of one iteration of `run`'s row loop:
`remove_row_from_input` is called only when `handle_row` returned
`"Scheduled"`; every other status, and an exception escaping `handle_row`
(modelled by `none`), leaves the input records untouched. -/
def run_step_input_rows (outcome : Option RowStatus)
    (records : List CsvRec) (row : DeviceRow) : List CsvRec :=
  match outcome with
  | some .Scheduled => remove_row_from_csv records row
  | _ => records

/-! ## Helper lemmas -/

theorem tokAux_text_append (m : List Char) (hm : '<' ∉ m)
    (acc r : List Char) :
    tokAux (.text acc) (m ++ r) = tokAux (.text (acc ++ m)) r := by
  induction m generalizing acc with
  | nil => simp
  | cons c m' ih =>
    have hc : ¬(c = '<') := fun h => hm (h ▸ List.mem_cons_self c m')
    simp only [List.cons_append, tokAux, if_neg hc, List.append_eq]
    rw [ih (fun h => hm (List.mem_cons_of_mem c h)) (acc ++ [c])]
    simp

theorem tokAux_tag_run (inner : List Char) (hin : '>' ∉ inner)
    (acc r : List Char) :
    tokAux (.tag acc) (inner ++ '>' :: r) =
      .openTag (tagName (acc ++ inner)) (tagAttrs (acc ++ inner))
          (tagSelfClose (acc ++ inner)) :: tokAux (.text []) r := by
  induction inner generalizing acc with
  | nil => simp [tokAux]
  | cons c i ih =>
    have hc : ¬(c = '>') := fun h => hin (h ▸ List.mem_cons_self c i)
    simp only [List.cons_append, tokAux, if_neg hc, List.append_eq]
    rw [ih (fun h => hin (List.mem_cons_of_mem c h)) (acc ++ [c])]
    simp

theorem tokAux_ctag_run (inner : List Char) (hin : '>' ∉ inner)
    (acc r : List Char) :
    tokAux (.ctag acc) (inner ++ '>' :: r) =
      .closeTag (acc ++ inner) :: tokAux (.text []) r := by
  induction inner generalizing acc with
  | nil => simp [tokAux]
  | cons c i ih =>
    have hc : ¬(c = '>') := fun h => hin (h ▸ List.mem_cons_self c i)
    simp only [List.cons_append, tokAux, if_neg hc, List.append_eq]
    rw [ih (fun h => hin (List.mem_cons_of_mem c h)) (acc ++ [c])]
    simp

theorem tokAux_pre_run (c : Char) (inner r : List Char)
    (hslash : ¬(c = '/')) (hin : '>' ∉ c :: inner) :
    tokAux .pre ((c :: inner) ++ '>' :: r) =
      .openTag (tagName (c :: inner)) (tagAttrs (c :: inner))
          (tagSelfClose (c :: inner)) :: tokAux (.text []) r := by
  simp only [List.cons_append, tokAux, if_neg hslash]
  have := tokAux_tag_run inner
    (fun h => hin (List.mem_cons_of_mem c h)) [c] r
  simpa using this

theorem parseAttrs_val_run (k a w r : List Char) (hw : '"' ∉ w) :
    parseAttrsAux (.val k a) (w ++ '"' :: r) =
      (k, a ++ w) :: parseAttrsAux .idle r := by
  induction w generalizing a with
  | nil => simp [parseAttrsAux]
  | cons c w' ih =>
    have hc : ¬(c = '"') := fun h => hw (h ▸ List.mem_cons_self c w')
    simp only [List.cons_append, parseAttrsAux, if_neg hc, List.append_eq]
    rw [ih (a ++ [c]) (fun h => hw (List.mem_cons_of_mem c h))]
    simp

theorem splitOnChar_no_sep (c : Char) (xs : List Char) (h : c ∉ xs) :
    splitOnChar c xs = [xs] := by
  induction xs with
  | nil => rfl
  | cons x xs' ih =>
    have hx : ¬(x = c) := fun hh => h (hh ▸ List.mem_cons_self x xs')
    simp only [splitOnChar, if_neg hx]
    rw [ih (fun hh => h (List.mem_cons_of_mem x hh))]

theorem splitOnChar_append_sep (c : Char) (xs ys : List Char) (h : c ∉ xs) :
    splitOnChar c (xs ++ c :: ys) =
      xs :: splitOnChar c ys := by
  induction xs with
  | nil => simp [splitOnChar]
  | cons x xs' ih =>
    have hx : ¬(x = c) := fun hh => h (hh ▸ List.mem_cons_self x xs')
    simp only [List.cons_append, splitOnChar, if_neg hx, List.append_eq]
    rw [ih (fun hh => h (List.mem_cons_of_mem x hh))]

theorem tokenize_fragment (m : List Char) (hm : '<' ∉ m) :
    tokenize (fragmentOf m) =
      .openTag ("span".data) [(("id".data), ("MainContent_lblMessage".data))]
          false :: emitText m [.closeTag ("span".data)] := by
  have e1 : tokenize (fragmentOf m) =
      .openTag ("span".data) [(("id".data), ("MainContent_lblMessage".data))]
          false :: tokAux (.text []) (m ++ ("</span>".data)) := rfl
  rw [e1, tokAux_text_append m hm [] (("</span>".data))]
  simp only [List.nil_append]
  rfl

theorem tokenize_fullPage (m : List Char) (hm : '<' ∉ m) :
    tokenize (fullPageOf m) =
      .openTag ("html".data) [] false :: .openTag ("body".data) [] false ::
        .openTag ("span".data) [(("id".data), ("MainContent_lblMessage".data))]
          false ::
        emitText m [.closeTag ("span".data), .closeTag ("body".data),
          .closeTag ("html".data)] := by
  have e1 : tokenize (fullPageOf m) =
      .openTag ("html".data) [] false :: .openTag ("body".data) [] false ::
        .openTag ("span".data) [(("id".data), ("MainContent_lblMessage".data))]
          false ::
        tokAux (.text []) ((m ++ ("</span>".data)) ++ ("</body></html>".data)) :=
    rfl
  have e2 : (m ++ ("</span>".data)) ++ ("</body></html>".data) =
      m ++ ("</span></body></html>".data) := by
    rw [List.append_assoc]
    rfl
  rw [e1, e2, tokAux_text_append m hm [] (("</span></body></html>".data))]
  simp only [List.nil_append]
  rfl

theorem getLast?_cons_ne {α} (c : α) (M : List α) (h : M ≠ []) :
    (c :: M).getLast? = M.getLast? := by
  cases M with
  | nil => exact absurd rfl h
  | cons m M' => rfl

theorem getLast?_append_slash (l t : List Char)
    (h : t.getLast? = some '/') : (l ++ t).getLast? = some '/' := by
  induction l with
  | nil => simpa using h
  | cons c l' ih =>
    have ht : t ≠ [] := by
      intro hh
      rw [hh] at h
      exact Option.noConfusion h
    have hne : l' ++ t ≠ [] := by
      simp [ht]
    rw [List.cons_append, getLast?_cons_ne c (l' ++ t) hne]
    exact ih

theorem renderHiddenInput_shape (n v rest : List Char) :
    renderHiddenInput n v ++ rest = '<' :: (innerOf n v ++ ('>' :: rest)) := by
  simp only [renderHiddenInput, innerOf, List.append_assoc]
  rfl

theorem tagSelfClose_innerOf (n v : List Char) :
    tagSelfClose ('i' :: (("nput name=\"".data) ++
      (n ++ (("\" value=\"".data) ++ (v ++ ("\"/".data)))))) = true := by
  unfold tagSelfClose
  have h0 : (("\"/".data) : List Char).getLast? = some '/' := rfl
  have h1 := getLast?_append_slash v _ h0
  have h2 := getLast?_append_slash ((("\" value=\"".data) : List Char)) _ h1
  have h3 := getLast?_append_slash n _ h2
  have h4 := getLast?_append_slash ((("nput name=\"".data) : List Char)) _ h3
  have h5 : (("nput name=\"".data) ++
      (n ++ (("\" value=\"".data) ++ (v ++ ("\"/".data))))) ≠ ([] : List Char) := by
    intro hh
    rw [hh] at h4
    exact Option.noConfusion h4
  rw [getLast?_cons_ne _ _ h5, h4]
  rfl

theorem tagAttrs_innerOf (n v : List Char) (hn : '"' ∉ n) (hv : '"' ∉ v) :
    tagAttrs ('i' :: (("nput name=\"".data) ++
      (n ++ (("\" value=\"".data) ++ (v ++ ("\"/".data)))))) =
      [(("name".data), n), (("value".data), v)] := by
  have ea : tagAttrs ('i' :: (("nput name=\"".data) ++
      (n ++ (("\" value=\"".data) ++ (v ++ ("\"/".data)))))) =
      parseAttrsAux (.val ("name".data) [])
        (n ++ ('"' :: ((" value=\"".data) ++ (v ++ ("\"/".data))))) := rfl
  rw [ea, parseAttrs_val_run ("name".data) [] n _ hn]
  have eb : parseAttrsAux .idle ((" value=\"".data) ++ (v ++ ("\"/".data))) =
      parseAttrsAux (.val ("value".data) []) (v ++ ('"' :: ('/' :: []))) := rfl
  rw [eb, parseAttrs_val_run ("value".data) [] v _ hv]
  simp
  rfl

theorem tokenize_input_cons (n v rest : List Char)
    (hn1 : '>' ∉ n) (hn2 : '"' ∉ n) (hv1 : '>' ∉ v) (hv2 : '"' ∉ v) :
    tokAux (.text []) (renderHiddenInput n v ++ rest) =
      .openTag ("input".data) [(("name".data), n), (("value".data), v)]
          true :: tokAux (.text []) rest := by
  rw [renderHiddenInput_shape]
  have e0 : tokAux (.text []) ('<' :: (innerOf n v ++ ('>' :: rest))) =
      tokAux .pre (innerOf n v ++ ('>' :: rest)) := rfl
  have eInner : innerOf n v = 'i' :: (("nput name=\"".data) ++
      (n ++ (("\" value=\"".data) ++ (v ++ ("\"/".data))))) := rfl
  have hin : '>' ∉ 'i' :: (("nput name=\"".data) ++
      (n ++ (("\" value=\"".data) ++ (v ++ ("\"/".data))))) := by
    intro h
    simp only [List.mem_cons, List.mem_append] at h
    rcases h with h | h | h | h | h | h
    · exact absurd h (by decide)
    · exact absurd h (by decide)
    · exact hn1 h
    · exact absurd h (by decide)
    · exact hv1 h
    · exact absurd h (by decide)
  rw [e0, eInner, tokAux_pre_run 'i' _ rest (by decide) hin]
  have ha : tagName ('i' :: (("nput name=\"".data) ++
      (n ++ (("\" value=\"".data) ++ (v ++ ("\"/".data)))))) = ("input".data) :=
    rfl
  rw [ha, tagSelfClose_innerOf n v, tagAttrs_innerOf n v hn2 hv2]

theorem tokenize_echo (pairs : List (List Char × List Char))
    (h : ∀ p ∈ pairs, '>' ∉ p.1 ∧ '"' ∉ p.1 ∧ '>' ∉ p.2 ∧ '"' ∉ p.2) :
    tokenize (echoPage pairs) =
      pairs.map (fun p => .openTag ("input".data)
        [(("name".data), p.1), (("value".data), p.2)] true) := by
  induction pairs with
  | nil => rfl
  | cons p rest ih =>
    obtain ⟨h1, h2, h3, h4⟩ := h p (List.mem_cons_self p rest)
    obtain ⟨n, v⟩ := p
    show tokAux (.text []) (renderHiddenInput n v ++ echoPage rest) = _
    rw [tokenize_input_cons n v (echoPage rest) h1 h2 h3 h4]
    rw [show tokAux (.text []) (echoPage rest) = tokenize (echoPage rest)
      from rfl]
    rw [ih (fun q hq => h q (List.mem_cons_of_mem _ hq))]
    rfl

theorem firstKeyword_eq_nil_iff (hay : List Char) (ks : List (List Char))
    (hne : ∀ k ∈ ks, k ≠ []) :
    firstKeyword hay ks = [] ↔ ∀ k ∈ ks, hasSub hay k = false := by
  induction ks with
  | nil => simp [firstKeyword]
  | cons k ks ih =>
    by_cases h : hasSub hay k
    · simp only [firstKeyword, if_pos h]
      constructor
      · intro hk
        exact absurd hk (hne k (List.mem_cons_self k ks))
      · intro hall
        exact absurd h (by simp [hall k (List.mem_cons_self k ks)])
    · have h' : hasSub hay k = false := by simpa using h
      simp only [firstKeyword, if_neg h]
      rw [ih (fun x hx => hne x (List.mem_cons_of_mem k hx))]
      constructor
      · intro hall
        intro x hx
        rcases List.mem_cons.mp hx with rfl | hx'
        · exact h'
        · exact hall x hx'
      · intro hall x hx
        exact hall x (List.mem_cons_of_mem k hx)

theorem findTimeMatch_none (av al : List Char)
    (cleaned : List (List Char × List Char))
    (h : ∀ p ∈ cleaned,
      p.2 ≠ [] ∧ normTimeLabel p.2 ≠ normTimeLabel al ∧ p.1 ≠ av) :
    findTimeMatch av al cleaned = none := by
  induction cleaned with
  | nil => rfl
  | cons p rest ih =>
    obtain ⟨hl, hnorm, hv⟩ := h p (List.mem_cons_self p rest)
    obtain ⟨v, l⟩ := p
    have hcond :
        ¬(normTimeLabel (if l = [] then al else l) = normTimeLabel al ∨
          (v ≠ [] ∧ v = av)) := by
      rw [if_neg (by simpa using hl)]
      push_neg
      exact ⟨by simpa using hnorm, fun _ => by simpa using hv⟩
    simp only [findTimeMatch, if_neg hcond]
    exact ih (fun q hq => h q (List.mem_cons_of_mem _ hq))

theorem firstAllowedMatch_none (cleaned : List (List Char × List Char))
    (allowed : List (List Char × List Char))
    (h : ∀ q ∈ allowed, findTimeMatch q.1 q.2 cleaned = none) :
    firstAllowedMatch cleaned allowed = none := by
  induction allowed with
  | nil => rfl
  | cons q rest ih =>
    obtain ⟨av, al⟩ := q
    have h0 := h (av, al) (List.mem_cons_self _ rest)
    simp only [firstAllowedMatch, h0]
    exact ih (fun q' hq' => h q' (List.mem_cons_of_mem _ hq'))

theorem remove_row_cons_of_no_match (rec : CsvRec) (rest : List CsvRec)
    (row : DeviceRow) (h : matchesRow rec row = false) :
    remove_row_from_csv (rec :: rest) row =
      rec :: remove_row_from_csv rest row := by
  simp only [remove_row_from_csv, findMatchIdx, h, Bool.false_eq_true, if_false]
  cases hfind : findMatchIdx row rest with
  | none => simp [hfind]
  | some k => simp [hfind, List.eraseIdx_cons_succ]

/-! ## Claims -/

/-- C1 counterexample: for the logical status message `A|B` — carried by the
message element both times — the full-page body parses to `A|B` but the
MicrosoftAjax delta wrapping the same fragment parses to `A`: the delta walk
splits the body on every pipe, so a pipe inside the fragment truncates the
recovered message, refuting `parse(fullPage(m)) = parse(delta(m))` as stated
for every message `m`. -/
theorem C1_counterexample :
    parse_status_from_html (fullPageOf (("A|B".data))) = ("A|B".data)
    ∧ parse_status_from_html (deltaOf (("A|B".data))) = ("A".data)
    ∧ parse_status_from_html (fullPageOf (("A|B".data))) ≠
        parse_status_from_html (deltaOf (("A|B".data))) := by
  refine ⟨?_, ?_, ?_⟩ <;> decide

/-- C1 (amended): for every plain-text logical status message — one with no
markup (`<`) and, as the pipe-delimited delta transport requires, no pipe
character — parsing a full-page HTML body containing the message element
yields the same status text as parsing a MicrosoftAjax delta whose
`updatePanel` fragment is the same HTML. -/
theorem C1_format_invariance_no_pipe (m : List Char)
    (hm : '<' ∉ m) (hp : '|' ∉ m) :
    parse_status_from_html (fullPageOf m) =
      parse_status_from_html (deltaOf m) := by
  by_cases hm0 : m = []
  · subst hm0
    decide
  · have hemit : ∀ K, emitText m K = .text m :: K := fun K => by
      simp [emitText, hm0]
    have htokF := tokenize_fullPage m hm
    rw [hemit] at htokF
    have htokf := tokenize_fragment m hm
    rw [hemit] at htokf
    have hfull : parse_status_from_html (fullPageOf m) =
        joinWords (wordsAux [] m ++ []) := by
      have h1 : parse_status_from_html (fullPageOf m) =
          (match firstSelMatch (tokenize (fullPageOf m)) with
           | some t => t
           | none => firstKeyword (upperChars (fullPageOf m)) KEYWORDS) := rfl
      rw [h1, htokF]
      rfl
    have hfragp : '|' ∉ fragmentOf m := by
      intro h
      simp only [fragmentOf, List.mem_append] at h
      rcases h with h | h | h
      · exact absurd h (by decide)
      · exact hp h
      · exact absurd h (by decide)
    have hsplit : splitOnChar '|' (deltaOf m) =
        ([] : List Char) :: ("1".data) :: ("updatePanel".data) ::
          ("pnl".data) :: ("99".data) :: fragmentOf m ::
          [([] : List Char)] := by
      have d1 : splitOnChar '|' (deltaOf m) =
          [] :: splitOnChar '|' (("1".data) ++ '|' ::
            (("updatePanel".data) ++ '|' :: (("pnl".data) ++ '|' ::
              (("99".data) ++ '|' :: (fragmentOf m ++ '|' :: []))))) := rfl
      rw [d1, splitOnChar_append_sep '|' (("1".data)) _ (by decide),
        splitOnChar_append_sep '|' (("updatePanel".data)) _ (by decide),
        splitOnChar_append_sep '|' (("pnl".data)) _ (by decide),
        splitOnChar_append_sep '|' (("99".data)) _ (by decide),
        splitOnChar_append_sep '|' (fragmentOf m) _ hfragp]
      rfl
    have hdoc : docTextNorm (tokenize (fragmentOf m)) =
        joinWords (wordsAux [] m ++ []) := by
      rw [htokf]
      rfl
    have hns : nonemptySelText
        (.openTag ("span".data)
            [(("id".data), ("MainContent_lblMessage".data))] false ::
          .text m :: [.closeTag ("span".data)]) =
        (if joinWords (wordsAux [] m ++ []) ≠ [] then
          some (joinWords (wordsAux [] m ++ [])) else none) := rfl
    have hextract : parse_status_from_html (deltaOf m) =
        (match firstSnippetSelText [fragmentOf m] with
         | some t => t
         | none =>
           match firstSnippetCleaned [fragmentOf m] with
           | some c => c.take 300
           | none => []) := by
      have h1 : parse_status_from_html (deltaOf m) =
          (match firstSnippetSelText
              (collectPanels (splitOnChar '|' (deltaOf m))) with
           | some t => t
           | none =>
             match firstSnippetCleaned
                 (collectPanels (splitOnChar '|' (deltaOf m))) with
             | some c => c.take 300
             | none => []) := rfl
      rw [h1, hsplit]
      rfl
    have hsel1 : firstSnippetSelText [fragmentOf m] =
        (if joinWords (wordsAux [] m ++ []) ≠ [] then
          some (joinWords (wordsAux [] m ++ [])) else none) := by
      have h1 : firstSnippetSelText [fragmentOf m] =
          (match nonemptySelText (tokenize (fragmentOf m)) with
           | some x => some x
           | none => none) := rfl
      rw [h1, htokf, hns]
      by_cases hT : joinWords (wordsAux [] m) = []
      · simp [hT]
      · simp [hT]
    have hclean : firstSnippetCleaned [fragmentOf m] =
        (if joinWords (wordsAux [] m ++ []) ≠ [] then
          some (joinWords (wordsAux [] m ++ [])) else none) := by
      have h1 : firstSnippetCleaned [fragmentOf m] =
          (if docTextNorm (tokenize (fragmentOf m)) ≠ [] then
            some (docTextNorm (tokenize (fragmentOf m))) else none) := by
        simp [firstSnippetCleaned]
      rw [h1, hdoc]
    rw [hfull, hextract, hsel1, hclean]
    by_cases hT : joinWords (wordsAux [] m) = []
    · simp [hT]
    · simp [hT]

/-- C1 witness: the amended format invariance at the concrete message
`Done OK`. -/
theorem C1_format_invariance_no_pipe_witness :
    parse_status_from_html (fullPageOf (("Done OK".data))) =
      parse_status_from_html (deltaOf (("Done OK".data))) :=
  C1_format_invariance_no_pipe (("Done OK".data)) (by decide) (by decide)

/-- C2: for the body `|...|updatePanel|lblMessage|18|<html>Success</html>|`
the Delta Response Parser returns exactly `"Success"`: the token three
positions after the literal `updatePanel` is taken as the HTML fragment, no
known status selector matches it, and the cleaned plain-text fallback of the
fragment is `Success`. -/
theorem C2_delta_success :
    parse_status_from_html
        (("|...|updatePanel|lblMessage|18|<html>Success</html>|".data)) =
      ("Success".data)
    ∧ collectPanels (splitOnChar '|'
        (("|...|updatePanel|lblMessage|18|<html>Success</html>|".data))) =
      [("<html>Success</html>".data)]
    ∧ firstSnippetSelText [("<html>Success</html>".data)] = none := by
  refine ⟨?_, ?_, ?_⟩ <;> decide

/-- C3 counterexample: the body `|ERROR|` is a MicrosoftAjax delta from
which no selector and no plain-text fallback extracts a status, and whose
uppercased raw body contains the keyword `ERROR`; the claim says the parser
then returns `ERROR`, but `parse_status_from_html` returns the empty result:
its delta branch has no keyword sniff. -/
theorem C3_counterexample :
    parse_status_from_html (("|ERROR|".data)) = []
    ∧ hasSub (upperChars (("|ERROR|".data))) (("ERROR".data)) = true
    ∧ firstSelMatch (tokenize (("|ERROR|".data))) = none := by
  refine ⟨?_, ?_, ?_⟩ <;> decide

/-- C3 (amended): the keyword sniff over the uppercased raw body — returning
the first of SUCCESS, SCHEDULE, NOT, INVALID, ERROR that occurs, and the
empty result exactly when none occurs — is performed by
`parse_status_from_html` only for bodies that are not MicrosoftAjax deltas,
and by `parse_status` only for bodies that are; in the remaining branch each
parser returns the empty result without sniffing. -/
theorem C3_keyword_sniff_branches (body : List Char)
    (hsel : firstSelMatch (tokenize body) = none) :
    (startsWithPipe body = false →
      parse_status_from_html body = firstKeyword (upperChars body) KEYWORDS)
    ∧ (startsWithPipe body = true →
      parse_status body = firstKeyword (upperChars body) KEYWORDS)
    ∧ (startsWithPipe body = false → parse_status body = [])
    ∧ (firstKeyword (upperChars body) KEYWORDS = [] ↔
      ∀ k ∈ KEYWORDS, hasSub (upperChars body) k = false) := by
  refine ⟨?_, ?_, ?_, ?_⟩
  · intro hp
    simp [parse_status_from_html, hp, hsel]
  · intro hp
    simp [parse_status, hp, hsel]
  · intro hp
    simp [parse_status, hp, hsel]
  · exact firstKeyword_eq_nil_iff (upperChars body) KEYWORDS (by decide)

/-- C3 witness: the amended statement at the concrete non-delta body
`<p>INVALID request</p>`. -/
theorem C3_keyword_sniff_branches_witness :
    (startsWithPipe (("<p>INVALID request</p>".data)) = false →
      parse_status_from_html (("<p>INVALID request</p>".data)) =
        firstKeyword (upperChars (("<p>INVALID request</p>".data))) KEYWORDS)
    ∧ (startsWithPipe (("<p>INVALID request</p>".data)) = true →
      parse_status (("<p>INVALID request</p>".data)) =
        firstKeyword (upperChars (("<p>INVALID request</p>".data))) KEYWORDS)
    ∧ (startsWithPipe (("<p>INVALID request</p>".data)) = false →
      parse_status (("<p>INVALID request</p>".data)) = [])
    ∧ (firstKeyword (upperChars (("<p>INVALID request</p>".data))) KEYWORDS = [] ↔
      ∀ k ∈ KEYWORDS,
        hasSub (upperChars (("<p>INVALID request</p>".data))) k = false) :=
  C3_keyword_sniff_branches (("<p>INVALID request</p>".data)) (by decide)

/-- C4: building a postback payload from a `PostbackState` and running the
hidden-field extractor on an HTML page that echoes the payload's fields back
as named hidden inputs recovers exactly the state's six field values (none
of which `post_search`'s field values override); the hypotheses say each
variable field value is representable in an HTML attribute (no `>` or `"`,
as holds for the base64 tokens ASP.NET issues). -/
theorem C4_roundtrip (s : PostbackState) (opco productCode serial : List Char)
    (hvs : '>' ∉ s.viewState ∧ '"' ∉ s.viewState)
    (hvg : '>' ∉ s.viewStateGenerator ∧ '"' ∉ s.viewStateGenerator)
    (hev : '>' ∉ s.eventValidation ∧ '"' ∉ s.eventValidation)
    (het : '>' ∉ s.eventTarget ∧ '"' ∉ s.eventTarget)
    (hea : '>' ∉ s.eventArgument ∧ '"' ∉ s.eventArgument)
    (hlf : '>' ∉ s.lastFocus ∧ '"' ∉ s.lastFocus)
    (ho : '>' ∉ opco ∧ '"' ∉ opco)
    (hpc : '>' ∉ productCode ∧ '"' ∉ productCode)
    (hsn : '>' ∉ serial ∧ '"' ∉ serial) :
    extract_hidden (echoPage (post_search_form s opco productCode serial)) =
      s := by
  have hmap : (post_search_form s opco productCode serial).map Prod.fst =
      [("ctl00$ScriptManager1".data), ("__EVENTTARGET".data),
        ("__EVENTARGUMENT".data), ("__LASTFOCUS".data),
        ("__VIEWSTATE".data), ("__VIEWSTATEGENERATOR".data),
        ("__EVENTVALIDATION".data), ("ctl00$MainContent$ddlOpCoID".data),
        ("ctl00$MainContent$ProductCode".data),
        ("ctl00$MainContent$SerialNumber".data),
        ("ctl00$ucAsync1$hdnTimeout".data),
        ("ctl00$ucAsync1$hdnSetTimeoutID".data), ("__ASYNCPOST".data),
        SEARCH_TRIGGER] := rfl
  have hnames :
      ∀ q ∈ (post_search_form s opco productCode serial).map Prod.fst,
        '>' ∉ q ∧ '"' ∉ q := by
    rw [hmap]
    decide
  have hforall : ∀ p ∈ post_search_form s opco productCode serial,
      '>' ∉ p.1 ∧ '"' ∉ p.1 ∧ '>' ∉ p.2 ∧ '"' ∉ p.2 := by
    intro p hp
    have hn := hnames p.1 (List.mem_map_of_mem Prod.fst hp)
    refine ⟨hn.1, hn.2, ?_⟩
    simp only [post_search_form, List.mem_cons, List.not_mem_nil,
      or_false] at hp
    rcases hp with rfl | rfl | rfl | rfl | rfl | rfl | rfl | rfl | rfl |
      rfl | rfl | rfl | rfl | rfl
    · exact ⟨by decide, by decide⟩
    · exact ⟨het.1, het.2⟩
    · exact ⟨hea.1, hea.2⟩
    · exact ⟨hlf.1, hlf.2⟩
    · exact ⟨hvs.1, hvs.2⟩
    · exact ⟨hvg.1, hvg.2⟩
    · exact ⟨hev.1, hev.2⟩
    · exact ⟨ho.1, ho.2⟩
    · exact ⟨hpc.1, hpc.2⟩
    · exact ⟨hsn.1, hsn.2⟩
    · exact ⟨by decide, by decide⟩
    · exact ⟨by decide, by decide⟩
    · exact ⟨by decide, by decide⟩
    · exact ⟨by decide, by decide⟩
  simp only [extract_hidden]
  rw [tokenize_echo (post_search_form s opco productCode serial) hforall]
  rfl

/-- C4 witness: the round trip at a concrete state with base64-like
values. -/
theorem C4_roundtrip_witness :
    extract_hidden (echoPage (post_search_form
        ⟨("dDwVS+abc=".data), ("90059987".data), ("EVx/1=".data),
          ("tgt".data), [], []⟩
        ("FXAU".data) ("PC7".data) ("SN123".data))) =
      ⟨("dDwVS+abc=".data), ("90059987".data), ("EVx/1=".data),
        ("tgt".data), [], []⟩ :=
  C4_roundtrip
    ⟨("dDwVS+abc=".data), ("90059987".data), ("EVx/1=".data),
      ("tgt".data), [], []⟩
    ("FXAU".data) ("PC7".data) ("SN123".data)
    (by decide) (by decide) (by decide) (by decide) (by decide) (by decide)
    (by decide) (by decide) (by decide)

/-- C5: every search payload the builder produces contains the
ScriptManager key whose value is the panel name and the trigger name joined
by a single pipe, contains `__ASYNCPOST=true`, and maps the trigger
control's own field to its display value `Search`. -/
theorem C5_async_payload (hidden : PostbackState)
    (opco productCode serial : List Char) :
    ((("ctl00$ScriptManager1".data), SEARCH_PANEL ++ '|' :: SEARCH_TRIGGER) ∈
      post_search_form hidden opco productCode serial)
    ∧ ((("__ASYNCPOST".data), ("true".data)) ∈
      post_search_form hidden opco productCode serial)
    ∧ ((SEARCH_TRIGGER, ("Search".data)) ∈
      post_search_form hidden opco productCode serial)
    ∧ (SEARCH_PANEL ++ '|' :: SEARCH_TRIGGER).count '|' = 1 := by
  refine ⟨?_, ?_, ?_, ?_⟩
  · simp [post_search_form]
  · simp [post_search_form]
  · simp [post_search_form]
  · decide

/-- C7 counterexample: the live option list `[("08", "08 AM")]` consists of
one non-placeholder option, none of whose value or normalised label matches
the allow-listed maintenance-window hours; the claim says the policy selects
that first non-placeholder option, but `pick_time_option` returns no
selection at all, and `select_time` then raises instead of falling back. -/
theorem C7_counterexample :
    pick_time_option [(("08".data), ("08 AM".data))] = none
    ∧ collectOptions [(("08".data), ("08 AM".data))] =
      [(("08".data), ("08 AM".data))]
    ∧ select_time_choice [(("08".data), ("08 AM".data))] = none := by
  refine ⟨?_, ?_, ?_⟩ <;> decide

/-- C7 (amended): for every live option list none of whose non-placeholder
options matches the allow-listed hours — by normalised label (labels being
non-empty after stripping; an empty label would be treated as a match) or by
exact value — the policy returns no selection (`pick_time_option` yields
`None` and `select_time` raises) rather than selecting the first
non-placeholder option. -/
theorem C7_no_allowed_option_raises (live : List (List Char × List Char))
    (h : ∀ p ∈ collectOptions live,
      trimChars p.2 ≠ [] ∧
      ∀ q ∈ ALLOWED_TIME_OPTIONS,
        normTimeLabel (trimChars p.2) ≠ normTimeLabel q.2 ∧
          trimChars p.1 ≠ q.1) :
    select_time_choice live = none := by
  unfold select_time_choice pick_time_option
  apply firstAllowedMatch_none
  intro q hq
  apply findTimeMatch_none
  intro p hp
  rcases List.mem_filter.mp hp with ⟨hp1, hp2⟩
  rcases List.mem_map.mp hp1 with ⟨orig, horig, rfl⟩
  obtain ⟨hl, hrest⟩ := h orig horig
  exact ⟨hl, (hrest q hq).1, (hrest q hq).2⟩

/-- C7 witness: the amended statement at the concrete live option list
`[("09", "09 AM")]`. -/
theorem C7_no_allowed_option_raises_witness :
    select_time_choice [(("09".data), ("09 AM".data))] = none :=
  C7_no_allowed_option_raises [(("09".data), ("09 AM".data))] (by decide)

/-- C8: under the precondition that the configured window is non-degenerate,
every date the pickers return lies between today plus the minimum offset and
today plus the maximum offset, both inclusive (3 to 6 days ahead for the
hardcoded picker); `offset` is the `random.randint` draw, whose contract
bounds it by the window span. -/
theorem C8_date_window (dmin dmax today : Int) (offset offset3 : Nat)
    (hwindow : dmin ≤ dmax)
    (hoff : (offset : Int) ≤ max 0 (dmax - dmin))
    (hoff3 : offset3 ≤ 3) :
    (today + dmin ≤ pick_schedule_date dmin today offset
      ∧ pick_schedule_date dmin today offset ≤ today + dmax)
    ∧ (today + 3 ≤ pick_random_schedule_date today offset3
      ∧ pick_random_schedule_date today offset3 ≤ today + 6) := by
  rw [max_eq_right (by omega : (0 : Int) ≤ dmax - dmin)] at hoff
  unfold pick_schedule_date pick_random_schedule_date
  omega

/-- C8 witness: the window bounds at `dmin = 3`, `dmax = 6`, `today = 0`,
with draws 2 and 1. -/
theorem C8_date_window_witness :
    ((0 : Int) + 3 ≤ pick_schedule_date 3 0 2
      ∧ pick_schedule_date 3 0 2 ≤ (0 : Int) + 6)
    ∧ ((0 : Int) + 3 ≤ pick_random_schedule_date 0 1
      ∧ pick_random_schedule_date 0 1 ≤ (0 : Int) + 6) :=
  C8_date_window 3 6 0 2 1 (by decide) (by decide) (by decide)

/-- C6: a device record whose serial number or product code is empty is
skipped before any network activity: the batch loop contributes no network
event and no ledger row for it, and `DeviceRow.from_iterable` drops such a
record outright. -/
theorem C6_skip_empty_records (oracle : NRow → Int × List Char)
    (item : NRow) (rest : List NRow)
    (hempty : item.serial = [] ∨ item.product_code = [])
    (s p o st : List Char) (tail : List (List Char))
    (hcell : trimChars s = [] ∨ trimChars p = []) :
    replayRowStep (oracle item) item = ([], [])
    ∧ replayMainLoop oracle (item :: rest) = replayMainLoop oracle rest
    ∧ DeviceRow.from_iterable (s :: p :: o :: st :: tail) = none := by
  have hstep : replayRowStep (oracle item) item = ([], []) := by
    simp [replayRowStep, hempty]
  refine ⟨hstep, ?_, ?_⟩
  · simp [replayMainLoop, hstep]
  · simp only [DeviceRow.from_iterable, List.map]
    rcases hcell with hc | hc <;> simp [hc]

/-- C6 witness: the skip at a concrete record with an empty serial. -/
theorem C6_skip_empty_records_witness :
    replayRowStep ((fun _ : NRow => ((200 : Int), ([] : List Char)))
        ⟨[], ("PC7".data), ("VIC".data), ("FXAU".data)⟩)
        ⟨[], ("PC7".data), ("VIC".data), ("FXAU".data)⟩ = ([], [])
    ∧ replayMainLoop (fun _ : NRow => ((200 : Int), ([] : List Char)))
        [⟨[], ("PC7".data), ("VIC".data), ("FXAU".data)⟩] =
      replayMainLoop (fun _ : NRow => ((200 : Int), ([] : List Char))) []
    ∧ DeviceRow.from_iterable
        [(" ".data), ("PC7".data), ("FXAU".data), ("vic".data)] = none :=
  C6_skip_empty_records (fun _ : NRow => ((200 : Int), ([] : List Char)))
    ⟨[], ("PC7".data), ("VIC".data), ("FXAU".data)⟩ []
    (Or.inl rfl) (" ".data) ("PC7".data) ("FXAU".data) ("vic".data) []
    (Or.inl (by decide))

/-- C9 counterexample: for the response body `<div></div>` no parser
fallback extracts any status text, yet the ledger row the Playwright batch
writes for the device records the empty string — not a "no message" marker —
in both status columns. -/
theorem C9_counterexample :
    parse_status_from_html (("<div></div>".data)) = []
    ∧ (pw_output_row ⟨("SN1".data), ("PC7".data), ("VIC".data), ("FXAU".data)⟩
        200 (("<div></div>".data)) 200 [] (("2026-01-01".data))
        (("03".data)) (("+11:00".data))).status_text_search = []
    ∧ (pw_output_row ⟨("SN1".data), ("PC7".data), ("VIC".data), ("FXAU".data)⟩
        200 (("<div></div>".data)) 200 [] (("2026-01-01".data))
        (("03".data)) (("+11:00".data))).status_text_schedule = [] := by
  refine ⟨?_, ?_, ?_⟩ <;> decide

/-- C9 (amended): whenever no status text could be extracted by any parser
fallback for an attempt, the Playwright batch records the parser's empty
string itself in the output row's status columns; no explicit "no message"
marker is added, so the outcome is not distinguishable from a genuinely
empty server message. -/
theorem C9_empty_status_recorded (item : NRow) (code_s : Int)
    (html_s : List Char) (code_c : Int) (status_c : List Char)
    (d t z : List Char)
    (hs : parse_status_from_html html_s = []) (hc : status_c = []) :
    (pw_output_row item code_s html_s code_c status_c d t z).status_text_search
      = []
    ∧ (pw_output_row item code_s html_s code_c status_c d t z).status_text_schedule
      = [] := by
  simp [pw_output_row, hs, hc]

/-- C9 witness: the amended statement at a concrete unparseable search body
and an empty schedule status. -/
theorem C9_empty_status_recorded_witness :
    (pw_output_row ⟨("SN2".data), ("PC8".data), ("NSW".data), ("FXAU".data)⟩
        200 (("<span></span>".data)) 200 [] (("2026-01-02".data))
        (("03".data)) (("+11:00".data))).status_text_search = []
    ∧ (pw_output_row ⟨("SN2".data), ("PC8".data), ("NSW".data), ("FXAU".data)⟩
        200 (("<span></span>".data)) 200 [] (("2026-01-02".data))
        (("03".data)) (("+11:00".data))).status_text_schedule = [] :=
  C9_empty_status_recorded
    ⟨("SN2".data), ("PC8".data), ("NSW".data), ("FXAU".data)⟩
    200 (("<span></span>".data)) 200 [] (("2026-01-02".data))
    (("03".data)) (("+11:00".data)) (by decide) rfl

/-- C10: after processing a device row, the batch driver deletes the first
input record whose serial number and product code both equal the device's
values exactly when the outcome is `Scheduled`; every other outcome,
including an exception escaping `handle_row`, leaves the input records
unchanged, and so does a `Scheduled` outcome when no record matches. -/
theorem C10_remove_iff_scheduled (outcome : Option RowStatus)
    (records : List CsvRec) (row : DeviceRow) :
    (outcome ≠ some RowStatus.Scheduled →
      run_step_input_rows outcome records row = records)
    ∧ ((∀ r ∈ records, matchesRow r row = false) →
      run_step_input_rows (some RowStatus.Scheduled) records row = records)
    ∧ (∀ i (hi : i < records.length),
      matchesRow (records.get ⟨i, hi⟩) row = true →
      (∀ j (hj : j < records.length), j < i →
        matchesRow (records.get ⟨j, hj⟩) row = false) →
      run_step_input_rows (some RowStatus.Scheduled) records row =
        records.eraseIdx i) := by
  refine ⟨?_, ?_, ?_⟩
  · intro h
    cases outcome with
    | none => rfl
    | some s => cases s with
      | Scheduled => exact absurd rfl h
      | AlreadyUpgraded => rfl
      | NotEligible => rfl
      | Failed => rfl
  · intro hall
    show remove_row_from_csv records row = records
    induction records with
    | nil => rfl
    | cons rec rest ih =>
      rw [remove_row_cons_of_no_match rec rest row
        (hall rec (List.mem_cons_self rec rest))]
      rw [ih (fun r hr => hall r (List.mem_cons_of_mem rec hr))]
  · intro i hi hmatch hfirst
    show remove_row_from_csv records row = records.eraseIdx i
    induction records generalizing i with
    | nil => exact absurd hi (by simp)
    | cons rec rest ih =>
      cases i with
      | zero =>
        have h0 : matchesRow rec row = true := hmatch
        simp [remove_row_from_csv, findMatchIdx, h0, List.eraseIdx_cons_zero]
      | succ i' =>
        have h0 : matchesRow rec row = false :=
          hfirst 0 (by simp) (Nat.succ_pos i')
        rw [remove_row_cons_of_no_match rec rest row h0,
          List.eraseIdx_cons_succ]
        have hi' : i' < rest.length := by
          simpa [Nat.succ_lt_succ_iff] using hi
        rw [ih i' hi' hmatch
          (fun j hj hji =>
            hfirst (j + 1) (by simpa [Nat.succ_lt_succ_iff] using hj)
              (Nat.succ_lt_succ hji))]

/-- C10 witness: a `Failed` outcome leaves the records unchanged, and a
`Scheduled` outcome deletes the first (and only the first) matching
record. -/
theorem C10_remove_iff_scheduled_witness :
    run_step_input_rows (some RowStatus.Failed)
        [⟨("A1".data), ("P1".data)⟩]
        ⟨("A1".data), ("P1".data), [], []⟩ =
      [⟨("A1".data), ("P1".data)⟩]
    ∧ run_step_input_rows (some RowStatus.Scheduled)
        [⟨("B2".data), ("P1".data)⟩, ⟨("A1".data), ("P1".data)⟩]
        ⟨("A1".data), ("P1".data), [], []⟩ =
      [⟨("B2".data), ("P1".data)⟩] := by
  constructor
  · exact (C10_remove_iff_scheduled (some RowStatus.Failed)
      [⟨("A1".data), ("P1".data)⟩]
      ⟨("A1".data), ("P1".data), [], []⟩).1 (by simp)
  · have h := (C10_remove_iff_scheduled (some RowStatus.Scheduled)
      [⟨("B2".data), ("P1".data)⟩, ⟨("A1".data), ("P1".data)⟩]
      ⟨("A1".data), ("P1".data), [], []⟩).2.2 1 (by decide)
      (by decide)
      (fun j hj hji => by
        have hj0 : j = 0 := by omega
        subst hj0
        have hget :
            ([⟨("B2".data), ("P1".data)⟩, ⟨("A1".data), ("P1".data)⟩] :
              List CsvRec).get ⟨0, hj⟩ = ⟨("B2".data), ("P1".data)⟩ := rfl
        rw [hget]
        decide)
    simpa using h

end SRA
